import Mathlib

/-
Verification of the robot state-estimator family (ground TurtleBot and
planar quadrotor platforms).

The development shallowly embeds the estimator code over the reals:
  * `Drone.*`      embeds `src/src/drone_proj3/drone_estimator.py`
  * `Turtlebot.*`  embeds `src/src/turtlebot_proj3_pkg/src/Estimator.py`
Buffers become Lean lists, numpy arrays become `Fin n → ℝ` vectors and
`Matrix (Fin m) (Fin n) ℝ` matrices, and each estimator's mutable fields
become a state record threaded through its `update` function.

`np.linalg.inv` is modelled with Mathlib's matrix inverse `⁻¹`; on every
state reachable by the filters the innovation covariance is positive
definite (the measurement-noise matrices `R` are positive definite by
construction), hence invertible, so the model agrees with the code there.
Python raises `IndexError` when `u[-1]` / `y[-1]` / `x[-1]` is read from an
empty buffer; the embedding makes those reads total via `List.getLast?`
and leaves the state unchanged when a required buffer is empty, and the
theorems below always supply the non-empty-buffer facts explicitly.
-/

open Real Matrix

/-! ## Shared Kalman covariance algebra

These three definitions are the covariance recursion common to
`KalmanFilter.update` (Estimator.py lines 370-393) and
`ExtendedKalmanFilter.update` (both files):
`P⁻ = A·P·Aᵀ + Q`, `K = P⁻·Cᵀ·(C·P⁻·Cᵀ + R)⁻¹`, `P₊ = (I − K·C)·P⁻`. -/

namespace Kalman

def Ppred {n : ℕ} (A P Q : Matrix (Fin n) (Fin n) ℝ) : Matrix (Fin n) (Fin n) ℝ :=
  A * P * Aᵀ + Q

noncomputable def gain {n m : ℕ} (A : Matrix (Fin n) (Fin n) ℝ) (C : Matrix (Fin m) (Fin n) ℝ)
    (Q : Matrix (Fin n) (Fin n) ℝ) (R : Matrix (Fin m) (Fin m) ℝ)
    (P : Matrix (Fin n) (Fin n) ℝ) : Matrix (Fin n) (Fin m) ℝ :=
  Ppred A P Q * Cᵀ * (C * Ppred A P Q * Cᵀ + R)⁻¹

noncomputable def covUpdate {n m : ℕ} (A : Matrix (Fin n) (Fin n) ℝ) (C : Matrix (Fin m) (Fin n) ℝ)
    (Q : Matrix (Fin n) (Fin n) ℝ) (R : Matrix (Fin m) (Fin m) ℝ)
    (P : Matrix (Fin n) (Fin n) ℝ) : Matrix (Fin n) (Fin n) ℝ :=
  (1 - gain A C Q R P * C) * Ppred A P Q

end Kalman

/-! ## Aerial platform (`drone_estimator.py`) -/

namespace Drone

/-- Gravitational acceleration, `self.gr = 9.81` (`__init__`). -/
def gr : ℝ := 9.81

/-- Quadrotor mass, `self.m = 0.92` (`__init__`). -/
def m : ℝ := 0.92

/-- Moment of inertia, `self.J = 0.0023` (`__init__`). -/
def J : ℝ := 0.0023

/-- Landmark X coordinate, `self.landmark = (0, 5, 5)` (`__init__`). -/
def landmarkX : ℝ := 0

/-- Landmark Y coordinate (out of the flight plane). -/
def landmarkY : ℝ := 5

/-- Landmark Z coordinate. -/
def landmarkZ : ℝ := 5

/-- Continuous dynamics `f(x, u)`, written identically in
`DeadReckoning.__init__` (lines 247-260) and `ExtendedKalmanFilter.g`
(lines 354-369): `first_term + second_term @ u`. -/
noncomputable def f (x : Fin 6 → ℝ) (u : Fin 2 → ℝ) : Fin 6 → ℝ :=
  ![x 3, x 4, x 5,
    0 + (-Real.sin (x 2) / m) * u 0,
    -gr + (Real.cos (x 2) / m) * u 0,
    0 + (1 / J) * u 1]

/-- Discrete motion model `g(x, u) = x + f(x, u) * dt`
(`ExtendedKalmanFilter.g`, also `DeadReckoning.model`).  `t` stands for
`self.dt`, which the code derives from the recorded data file. -/
noncomputable def g (t : ℝ) (x : Fin 6 → ℝ) (u : Fin 2 → ℝ) : Fin 6 → ℝ :=
  fun i => x i + f x u i * t

/-- Embeds `ExtendedKalmanFilter.approx_A` (lines 384-390).  The code builds
`A_bar = np.eye(6)`, then `A_bar[3:, :3] += np.eye(3) * dt` — placing `dt`
at entries (3,0), (4,1), (5,2) — and finally adds the two trigonometric
terms at (3,2) and (4,2). -/
noncomputable def approx_A (t : ℝ) (x : Fin 6 → ℝ) (u : Fin 2 → ℝ) :
    Matrix (Fin 6) (Fin 6) ℝ :=
  !![1, 0, 0, 0, 0, 0;
     0, 1, 0, 0, 0, 0;
     0, 0, 1, 0, 0, 0;
     t, 0, -Real.cos (x 2) * u 0 / m * t, 1, 0, 0;
     0, t, -Real.sin (x 2) * u 0 / m * t, 0, 1, 0;
     0, 0, t, 0, 0, 1]

/-- Denominator of both entries of the range row of
`ExtendedKalmanFilter.approx_C` (lines 395-404):
`sqrt((x[0]-landmark[0])**2 + landmark[1]**2 + (x[1]-landmark[2])**2)`. -/
noncomputable def approxCdenom (x : Fin 6 → ℝ) : ℝ :=
  Real.sqrt ((x 0 - landmarkX) ^ 2 + landmarkY ^ 2 + (x 1 - landmarkZ) ^ 2)

/-- Embeds `ExtendedKalmanFilter.approx_C` (lines 392-406): a 2×6 matrix, zero
except for the range row's two position entries and `C_bar[1, 2] = 1`. -/
noncomputable def approx_C (x : Fin 6 → ℝ) : Matrix (Fin 2) (Fin 6) ℝ :=
  !![(x 0 - landmarkX) / approxCdenom x, (x 1 - landmarkZ) / approxCdenom x, 0, 0, 0, 0;
     0, 0, 1, 0, 0, 0]

/-- Embeds `ExtendedKalmanFilter.h` (drone_estimator.py lines 371-382),
as invoked in `update` with `y_obs = self.landmark`: the code compares
`x[0], x[1], x[2]` against the three landmark coordinates and reports
`x[2]` as the relative bearing. -/
noncomputable def h (x : Fin 6 → ℝ) : Fin 2 → ℝ :=
  ![Real.sqrt ((x 0 - landmarkX) ^ 2 + (x 1 - landmarkY) ^ 2
      + (x 2 - landmarkZ) ^ 2),
    x 2]

namespace EKF

/-- Process-noise covariance `self.Q = np.diag([2, 0.03, 7, 2, 13, 0.5])`
(`ExtendedKalmanFilter.__init__`, drone_estimator.py line 303). -/
noncomputable def Q : Matrix (Fin 6) (Fin 6) ℝ :=
  Matrix.diagonal ![2, 0.03, 7, 2, 13, 0.5]

/-- Measurement-noise covariance `self.R = np.diag([1.7, 0.5])` (line 304). -/
noncomputable def R : Matrix (Fin 2) (Fin 2) ℝ :=
  Matrix.diagonal ![1.7, 0.5]

/-- Initial estimation-error covariance `self.P = np.diag([2, 90, 0.2, 2, 50, 0.5])`. -/
noncomputable def P0 : Matrix (Fin 6) (Fin 6) ℝ :=
  Matrix.diagonal ![2, 90, 0.2, 2, 50, 0.5]

/-- Mutable state of the drone `ExtendedKalmanFilter`: sample buffers
plus `self.P`, `self.A`, `self.C` (the Jacobians are overwritten every
tick; `C` holds the most recent one, unset before the first tick).
`update` consumes `np.array(self.y[-1]).reshape((2, 1))`, a two-component
measurement, so measurement rows are modelled as pairs — the two
observation columns that `run`'s `data[9:12]` slice delivers to the
filter. -/
structure State where
  x_hat : List (Fin 6 → ℝ)
  x : List (Fin 6 → ℝ)
  u : List (Fin 2 → ℝ)
  y : List (Fin 2 → ℝ)
  P : Matrix (Fin 6) (Fin 6) ℝ
  A : Matrix (Fin 6) (Fin 6) ℝ
  C : Matrix (Fin 2) (Fin 6) ℝ

/-- The corrected estimate `x_pred + K @ (y[-1] - h(x_pred, landmark))`
with the gain of drone_estimator.py lines 322-332, where
`x_pred = g(x_hat_prev, u_prev)`. -/
noncomputable def correct (t : ℝ) (P : Matrix (Fin 6) (Fin 6) ℝ)
    (xh : Fin 6 → ℝ) (uu : Fin 2 → ℝ) (yy : Fin 2 → ℝ) : Fin 6 → ℝ :=
  g t xh uu +
    (Kalman.gain (approx_A t xh uu) (approx_C (g t xh uu)) Q R P).mulVec
      (yy - h (g t xh uu))

/-- Embeds `ExtendedKalmanFilter.update` (drone_estimator.py lines
310-352).  The timestamp half of the guard is COMMENTED OUT in the
source (line 311: `if len(self.x_hat) > 0:  # and self.x_hat[-1][0] <
self.x[-1][0]`): the only condition is a non-empty estimate buffer, so
once seeded the update appends on every single call, whether or not any
new measurement (or any new data at all) has arrived.  (Empty `u`/`y`
buffers would raise in Python; modelled as leaving the state
unchanged.) -/
noncomputable def update (t : ℝ) (s : State) : State :=
  match s.x_hat.getLast?, s.u.getLast?, s.y.getLast? with
  | some xh, some uu, some yy =>
    { s with x_hat := s.x_hat ++ [correct t s.P xh uu yy],
             P := Kalman.covUpdate (approx_A t xh uu) (approx_C (g t xh uu))
                    Q R s.P,
             A := approx_A t xh uu,
             C := approx_C (g t xh uu) }
  | _, _, _ => s

lemma droneEkfUpdate_eq_append {t : ℝ} {s : State} {xh : Fin 6 → ℝ}
    {uu yy : Fin 2 → ℝ}
    (hxh : s.x_hat.getLast? = some xh) (huu : s.u.getLast? = some uu)
    (hyy : s.y.getLast? = some yy) :
    update t s
      = { s with x_hat := s.x_hat ++ [correct t s.P xh uu yy],
                 P := Kalman.covUpdate (approx_A t xh uu)
                        (approx_C (g t xh uu)) Q R s.P,
                 A := approx_A t xh uu,
                 C := approx_C (g t xh uu) } := by
  unfold update
  rw [hxh, huu, hyy]

end EKF

/-- The append-only sample buffers shared by every drone estimator
(`Estimator.__init__`): inputs `u`, true states `x`, measurements `y`,
estimates `x_hat`, timestamps `t`.  A data row is `(time, x, u, y_obs)`
per the `(N,12)` layout noted at line 85. -/
structure BufState where
  t : List ℝ
  x : List (Fin 6 → ℝ)
  u : List (Fin 2 → ℝ)
  y : List (Fin 3 → ℝ)
  x_hat : List (Fin 6 → ℝ)

/-- One row of the recorded data file: `data[0]` the timestamp,
`data[1:7]` the true state, `data[7:9]` the input, `data[9:12]` the
observation. -/
structure DataRow where
  t : ℝ
  x : Fin 6 → ℝ
  u : Fin 2 → ℝ
  y : Fin 3 → ℝ

/-- The body of `Estimator.run`'s loop (lines 96-104): append the row's
fields to the buffers, then on the first iteration seed the estimate from
`self.x[-1]` (which is exactly the row just appended), and on later
iterations invoke the subclass's `update`. -/
def runStep (upd : BufState → BufState) (i : ℕ) (s : BufState)
    (row : DataRow) : BufState :=
  let s1 : BufState :=
    { s with t := s.t ++ [row.t], x := s.x ++ [row.x],
             u := s.u ++ [row.u], y := s.y ++ [row.y] }
  if i = 0 then { s1 with x_hat := s1.x_hat ++ [row.x] } else upd s1

/-- The loop of `Estimator.run`, indexed like `enumerate(self.data)`. -/
def runAux (upd : BufState → BufState) : ℕ → BufState → List DataRow → BufState
  | _, s, [] => s
  | i, s, row :: rest => runAux upd (i + 1) (runStep upd i s row) rest

/-- Embeds `Estimator.run` (lines 95-105): all buffers start empty. -/
def run (upd : BufState → BufState) (data : List DataRow) : BufState :=
  runAux upd 0 { t := [], x := [], u := [], y := [], x_hat := [] } data

/-- Embeds `OracleObserver.update` (lines 222-223):
`self.x_hat.append(self.x[-1])`.  (On an empty `x` Python would raise;
under `run` the buffer is never empty when `update` fires.) -/
def oracleUpdate (s : BufState) : BufState :=
  match s.x.getLast? with
  | some xt => { s with x_hat := s.x_hat ++ [xt] }
  | none => s

/-- Embeds `DeadReckoning.update` (lines 264-269): when at least one estimate
exists, append `model(x_hat[-1], u[-1]) = x_hat[-1] + f(x_hat[-1], u[-1])·dt`.
No measurement is consulted and there is no timestamp guard. -/
noncomputable def drUpdate (t : ℝ) (s : BufState) : BufState :=
  match s.x_hat.getLast?, s.u.getLast? with
  | some xh, some uu => { s with x_hat := s.x_hat ++ [g t xh uu] }
  | _, _ => s

lemma oracle_runAux_x_hat (rows : List DataRow) :
    ∀ (i : ℕ) (s : BufState),
    (runAux oracleUpdate i s rows).x_hat = s.x_hat ++ rows.map DataRow.x := by
  induction rows with
  | nil => intro i s; simp [runAux]
  | cons row rest ih =>
    intro i s
    simp only [runAux, List.map_cons]
    rw [ih]
    by_cases hi : i = 0
    · simp [runStep, hi]
    · simp [runStep, hi, oracleUpdate, List.getLast?_concat]

lemma dr_runAux_x_hat (t : ℝ) (rows : List DataRow) :
    ∀ (i : ℕ) (s : BufState) (prev : DataRow), i ≠ 0 →
    s.x_hat.getLast? = some prev.x →
    List.Chain (fun a b => b.x = g t a.x b.u) prev rows →
    (runAux (drUpdate t) i s rows).x_hat = s.x_hat ++ rows.map DataRow.x := by
  induction rows with
  | nil => intro i s prev _ _ _; simp [runAux]
  | cons row rest ih =>
    intro i s prev hi hlast hchain
    rw [List.chain_cons] at hchain
    obtain ⟨hrow, hchain'⟩ := hchain
    simp only [runAux, List.map_cons]
    have hstep : runStep (drUpdate t) i s row
        = { s with t := s.t ++ [row.t], x := s.x ++ [row.x],
                   u := s.u ++ [row.u], y := s.y ++ [row.y],
                   x_hat := s.x_hat ++ [g t prev.x row.u] } := by
      simp only [runStep, if_neg hi]
      unfold drUpdate
      simp [hlast, List.getLast?_concat]
    rw [hstep]
    rw [ih (i + 1) _ row (by simp)
      (by simp [← hrow, List.getLast?_concat]) hchain']
    simp [← hrow]

end Drone

/-- C10: On the aerial platform the zero-distance Jacobian singularity is
unreachable: for every real predicted state the denominator of the
measurement-Jacobian range row is at least 5 (the landmark's out-of-plane
y-coordinate contributes the constant 25 under the square root), so the
divisions in `approx_C` never divide by zero. -/
theorem drone_approxC_denominator_ge_five :
    ∀ x : Fin 6 → ℝ, 5 ≤ Drone.approxCdenom x ∧ Drone.approxCdenom x ≠ 0 := by
  intro x
  have h25 : (25 : ℝ) ≤ (x 0 - Drone.landmarkX) ^ 2 + Drone.landmarkY ^ 2 +
      (x 1 - Drone.landmarkZ) ^ 2 := by
    have h0 := sq_nonneg (x 0 - Drone.landmarkX)
    have h1 := sq_nonneg (x 1 - Drone.landmarkZ)
    simp only [Drone.landmarkY]
    nlinarith
  have h5 : (5 : ℝ) ≤ Drone.approxCdenom x := by
    have := Real.sqrt_le_sqrt h25
    calc (5 : ℝ) = Real.sqrt 25 := by
          rw [show (25 : ℝ) = 5 ^ 2 by norm_num, Real.sqrt_sq (by norm_num)]
      _ ≤ Drone.approxCdenom x := by
          unfold Drone.approxCdenom
          exact this
  exact ⟨h5, by positivity⟩

/-- C2: The drone's analytically coded dynamics Jacobian does NOT equal the
partial derivative of the discrete motion model `g(x,u) = x + f(x,u)·dt`.
Component 0 of `g` is exactly `x 0 + x 3 · dt` (linear), so its exact
partial derivative w.r.t. `x 3` is `dt`, and its partial w.r.t. `x 0` at
row 3 is `0`; but `approx_A` stores `0` at entry (0,3) and `dt` at entry
(3,0) — the velocity-coupling identity block was added to the transposed
block `[3:, :3]` instead of `[:3, 3:]`.  Shown here at `dt = 1/10`,
`x = 0`, `u = 0`: the exact difference quotient in direction `e₃` is
`1/10` while the coded entry (0,3) is `0`, and entry (3,0) is `1/10`
while `g`'s row 3 does not depend on `x 0` at all. -/
theorem drone_approxA_block_transposed :
    (∀ (t e : ℝ) (x : Fin 6 → ℝ) (u : Fin 2 → ℝ),
        Drone.g t (Function.update x 3 (x 3 + e)) u 0 - Drone.g t x u 0 = e * t) ∧
    (∀ (t e : ℝ) (x : Fin 6 → ℝ) (u : Fin 2 → ℝ),
        Drone.g t (Function.update x 0 (x 0 + e)) u 3 - Drone.g t x u 3 = 0) ∧
    Drone.approx_A (1/10) (fun _ => 0) (fun _ => 0) 0 3 = 0 ∧
    Drone.approx_A (1/10) (fun _ => 0) (fun _ => 0) 3 0 = 1/10 := by
  refine ⟨?_, ?_, ?_, ?_⟩
  · intro t e x u
    simp [Drone.g, Drone.f, Function.update]
    ring
  · intro t e x u
    simp [Drone.g, Drone.f, Function.update]
  · simp [Drone.approx_A]
  · simp [Drone.approx_A]

/-! ## Ground platform (`Estimator.py`) -/

namespace Turtlebot

/-- Half of track width, `self.d = 0.08` (`Estimator.__init__`). -/
def d : ℝ := 0.08

/-- Wheel radius, `self.r = 0.033` (`Estimator.__init__`). -/
def r : ℝ := 0.033

/-- Update period, `self.dt = 0.1` (`Estimator.__init__`). -/
def dt : ℝ := 0.1

namespace EKF

/-- Landmark x coordinate, `self.landmark = (0.5, 0.5)`
(`ExtendedKalmanFilter.__init__`). -/
def lx : ℝ := 0.5

/-- Landmark y coordinate. -/
def ly : ℝ := 0.5

/-- Process-noise covariance `Q = np.diag([3, 0.7, 2, 1, 1])`. -/
noncomputable def Q : Matrix (Fin 5) (Fin 5) ℝ :=
  Matrix.diagonal ![3, 0.7, 2, 1, 1]

/-- Measurement-noise covariance `R = np.diag([7, 1])`. -/
noncomputable def R : Matrix (Fin 2) (Fin 2) ℝ :=
  Matrix.diagonal ![7, 1]

/-- Denominator of both range-row entries of the measurement Jacobian
`C_bar` built inside `ExtendedKalmanFilter.update` (lines 524-532):
`sqrt((landmark[0]-x_pred[1])**2 + (landmark[1]-x_pred[2])**2)`.
Note there is no clamp: the expression is used as-is. -/
noncomputable def Cdenom (xp : Fin 5 → ℝ) : ℝ :=
  Real.sqrt ((lx - xp 1) ^ 2 + (ly - xp 2) ^ 2)

/-- The measurement Jacobian `C_bar` of `ExtendedKalmanFilter.update`
(lines 524-534): zeros except the range row's position entries and
`C_bar[1, 0] = 1`. -/
noncomputable def C_bar (xp : Fin 5 → ℝ) : Matrix (Fin 2) (Fin 5) ℝ :=
  !![0, (xp 1 - lx) / Cdenom xp, (xp 2 - ly) / Cdenom xp, 0, 0;
     1, 0, 0, 0, 0]

/-- The 5×2 input matrix inside `ExtendedKalmanFilter.__init__`'s `f`
(Estimator.py lines 442-451), on the timestamp-free 5-state
`(phi, x, y, thl, thr)`. -/
noncomputable def fMat (x : Fin 5 → ℝ) : Matrix (Fin 5) (Fin 2) ℝ :=
  !![-r / (2 * d), r / (2 * d);
     r / 2 * Real.cos (x 0), r / 2 * Real.cos (x 0);
     r / 2 * Real.sin (x 0), r / 2 * Real.sin (x 0);
     1, 0;
     0, 1]

/-- Function `f(x, u) = matrix @ [u[0], u[1]]` of
`ExtendedKalmanFilter.__init__` (lines 442-454). -/
noncomputable def f (x : Fin 5 → ℝ) (u : Fin 2 → ℝ) : Fin 5 → ℝ :=
  (fMat x).mulVec ![u 0, u 1]

/-- Embeds `self.model` (lines 488-490): `g(x, u) = x + f(x, u) * dt`. -/
noncomputable def g (x : Fin 5 → ℝ) (u : Fin 2 → ℝ) : Fin 5 → ℝ :=
  fun i => x i + f x u i * Turtlebot.dt

/-- Embeds `A_bar` (lines 456-464): identity plus the two bearing
partials at (1,0) and (2,0). -/
noncomputable def A_bar (x : Fin 5 → ℝ) (u : Fin 2 → ℝ) :
    Matrix (Fin 5) (Fin 5) ℝ :=
  !![1, 0, 0, 0, 0;
     -r / 2 * Real.sin (x 0) * (u 0 + u 1) * Turtlebot.dt, 1, 0, 0, 0;
     r / 2 * Real.cos (x 0) * (u 0 + u 1) * Turtlebot.dt, 0, 1, 0, 0;
     0, 0, 0, 1, 0;
     0, 0, 0, 0, 1]

/-- Embeds `h` (lines 492-503): distance to the landmark and the bearing. -/
noncomputable def h (x : Fin 5 → ℝ) : Fin 2 → ℝ :=
  ![Real.sqrt ((lx - x 1) ^ 2 + (ly - x 2) ^ 2), x 0]

/-- Mutable state of a ground `ExtendedKalmanFilter` instance: the four
sample buffers plus `self.P`, `self.A` and `self.C` — the latter two are
overwritten on every fresh tick (lines 517 and 534); `C` holds the most
recently computed measurement Jacobian (unset before the first fresh
tick). -/
structure State where
  x_hat : List (Fin 6 → ℝ)
  x : List (Fin 6 → ℝ)
  u : List (Fin 3 → ℝ)
  y : List (Fin 3 → ℝ)
  P : Matrix (Fin 5) (Fin 5) ℝ
  A : Matrix (Fin 5) (Fin 5) ℝ
  C : Matrix (Fin 2) (Fin 5) ℝ

/-- Slice `np.array(self.x_hat[-1])[1:]` — the previous estimate without
its timestamp. -/
def predVec (xh : Fin 6 → ℝ) : Fin 5 → ℝ := fun i => xh i.succ

/-- Slice `np.array(self.u[-1])[1:]`. -/
def inVec (uu : Fin 3 → ℝ) : Fin 2 → ℝ := ![uu 1, uu 2]

/-- The per-tick dynamics Jacobian `self.A = self.A_bar(x_hat_prev, u_prev)`. -/
noncomputable def newA (xh : Fin 6 → ℝ) (uu : Fin 3 → ℝ) :
    Matrix (Fin 5) (Fin 5) ℝ :=
  A_bar (predVec xh) (inVec uu)

/-- The per-tick measurement Jacobian `self.C = C_bar` built at `x_pred`
(lines 524-534). -/
noncomputable def newC (xh : Fin 6 → ℝ) (uu : Fin 3 → ℝ) :
    Matrix (Fin 2) (Fin 5) ℝ :=
  C_bar (g (predVec xh) (inVec uu))

/-- The corrected estimate `x_pred + K @ (y[-1][1:] - h(x_pred))` with the
gain of lines 517-537. -/
noncomputable def correct (P : Matrix (Fin 5) (Fin 5) ℝ) (xh : Fin 6 → ℝ)
    (uu yy : Fin 3 → ℝ) : Fin 5 → ℝ :=
  g (predVec xh) (inVec uu) +
    (Kalman.gain (newA xh uu) (newC xh uu) Q R P).mulVec
      (![yy 1, yy 2] - h (g (predVec xh) (inVec uu)))

/-- The tuple appended to `self.x_hat` (lines 540-556): the advanced
timestamp followed by the five corrected components (the bearing IS
estimated here, unlike the linear KF). -/
noncomputable def newEntry (P : Matrix (Fin 5) (Fin 5) ℝ) (xh : Fin 6 → ℝ)
    (uu yy : Fin 3 → ℝ) : Fin 6 → ℝ :=
  ![xh 0 + Turtlebot.dt, correct P xh uu yy 0, correct P xh uu yy 1,
    correct P xh uu yy 2, correct P xh uu yy 3, correct P xh uu yy 4]

/-- Embeds `ExtendedKalmanFilter.update` (Estimator.py lines 506-560),
with the same guard as the linear KF:
`len(self.x_hat) > 0 and self.x_hat[-1][0] < self.x[-1][0]` — true-state
freshness, never measurement freshness.  On a stale tick nothing at all
is written.  (Empty `u`/`y` buffers after a passing guard would raise in
Python; modelled as leaving the state unchanged, and the theorems supply
non-empty buffers.) -/
noncomputable def update (s : State) : State :=
  match s.x_hat.getLast?, s.x.getLast?, s.u.getLast?, s.y.getLast? with
  | some xh, some xt, some uu, some yy =>
    if xh 0 < xt 0 then
      { s with x_hat := s.x_hat ++ [newEntry s.P xh uu yy],
               P := Kalman.covUpdate (newA xh uu) (newC xh uu) Q R s.P,
               A := newA xh uu,
               C := newC xh uu }
    else s
  | _, _, _, _ => s

lemma ekfUpdate_eq_append {s : State} {xh xt : Fin 6 → ℝ} {uu yy : Fin 3 → ℝ}
    (hxh : s.x_hat.getLast? = some xh) (hxt : s.x.getLast? = some xt)
    (huu : s.u.getLast? = some uu) (hyy : s.y.getLast? = some yy)
    (hlt : xh 0 < xt 0) :
    update s = { s with x_hat := s.x_hat ++ [newEntry s.P xh uu yy],
                        P := Kalman.covUpdate (newA xh uu) (newC xh uu) Q R s.P,
                        A := newA xh uu,
                        C := newC xh uu } := by
  unfold update
  rw [hxh, hxt, huu, hyy]
  simp [hlt]

lemma ekfUpdate_eq_self {s : State} {xh xt : Fin 6 → ℝ}
    (hxh : s.x_hat.getLast? = some xh) (hxt : s.x.getLast? = some xt)
    (hlt : ¬ xh 0 < xt 0) :
    update s = s := by
  unfold update
  rw [hxh, hxt]
  cases hu : s.u.getLast? <;> cases hy : s.y.getLast? <;> simp [hlt]

end EKF

namespace KF

/-- Fixed bearing `self.phid = np.pi / 4` (`KalmanFilter.__init__`). -/
noncomputable def phid : ℝ := Real.pi / 4

/-- Matrix `self.A = np.eye(4)` — set once in `__init__`, never reassigned. -/
def A : Matrix (Fin 4) (Fin 4) ℝ := 1

/-- Matrix `self.B` (lines 341-351): maps wheel speeds to state deltas at the
fixed bearing, scaled by `dt`; set once in `__init__`, never reassigned. -/
noncomputable def B : Matrix (Fin 4) (Fin 2) ℝ :=
  Turtlebot.dt •
    !![r / 2 * Real.cos phid, r / 2 * Real.cos phid;
       r / 2 * Real.sin phid, r / 2 * Real.sin phid;
       1, 0;
       0, 1]

/-- Matrix `self.C = np.array([[1, 0, 0, 0], [0, 1, 0, 0]])`. -/
def C : Matrix (Fin 2) (Fin 4) ℝ := !![1, 0, 0, 0; 0, 1, 0, 0]

/-- Matrix `self.Q = np.eye(4)`. -/
def Q : Matrix (Fin 4) (Fin 4) ℝ := 1

/-- Matrix `self.R = np.diag([1, 1])`. -/
noncomputable def R : Matrix (Fin 2) (Fin 2) ℝ := Matrix.diagonal ![1, 1]

/-- Initial covariance `self.P = np.diag([1, 1, 1, 1])`. -/
noncomputable def P0 : Matrix (Fin 4) (Fin 4) ℝ := Matrix.diagonal ![1, 1, 1, 1]

/-- Mutable state of a `KalmanFilter` instance: the four sample buffers and
the covariance `self.P`.  `A`, `B`, `C`, `Q`, `R` and `phid` are assigned
in `__init__` and never written again (in particular `update` only ever
writes `self.x_hat` and `self.P`), so they are embedded as the constants
above — this is what makes the recursion's matrices constant across ticks.
State rows follow the documented layout
`(timestamp, bearing, x, y, theta_L, theta_R)`; `u` and `y` rows are
timestamp-prefixed triples. -/
structure State where
  x_hat : List (Fin 6 → ℝ)
  x : List (Fin 6 → ℝ)
  u : List (Fin 3 → ℝ)
  y : List (Fin 3 → ℝ)
  P : Matrix (Fin 4) (Fin 4) ℝ

/-- Slice `np.array(self.x_hat[-1])[2:]` — the previous reduced estimate
(timestamp and frozen bearing dropped). -/
def prevVec (xh : Fin 6 → ℝ) : Fin 4 → ℝ := ![xh 2, xh 3, xh 4, xh 5]

/-- Slice `np.array(self.u[-1])[1:]` — the wheel speeds without timestamp. -/
def inputVec (uu : Fin 3 → ℝ) : Fin 2 → ℝ := ![uu 1, uu 2]

/-- Slice `np.array(self.y[-1])[1:]` — the measurement without timestamp. -/
def measVec (yy : Fin 3 → ℝ) : Fin 2 → ℝ := ![yy 1, yy 2]

/-- State extrapolation `x_pred = self.A @ x_hat_prev + self.B @ u_prev`. -/
noncomputable def xpred (xh : Fin 6 → ℝ) (uu : Fin 3 → ℝ) : Fin 4 → ℝ :=
  A.mulVec (prevVec xh) + B.mulVec (inputVec uu)

/-- The corrected reduced estimate
`x_pred + K @ (y[-1][1:] - C @ x_pred)` with the gain of lines 370-372. -/
noncomputable def correct (P : Matrix (Fin 4) (Fin 4) ℝ) (xh : Fin 6 → ℝ)
    (uu : Fin 3 → ℝ) (yy : Fin 3 → ℝ) : Fin 4 → ℝ :=
  xpred xh uu +
    (Kalman.gain A C Q R P).mulVec (measVec yy - C.mulVec (xpred xh uu))

/-- The tuple appended to `self.x_hat` (lines 374-391): timestamp advanced
by `dt`, then the fixed bearing `self.phid`, then the corrected estimate. -/
noncomputable def newEntry (P : Matrix (Fin 4) (Fin 4) ℝ) (xh : Fin 6 → ℝ)
    (uu : Fin 3 → ℝ) (yy : Fin 3 → ℝ) : Fin 6 → ℝ :=
  ![xh 0 + Turtlebot.dt, phid,
    correct P xh uu yy 0, correct P xh uu yy 1,
    correct P xh uu yy 2, correct P xh uu yy 3]

/-- Embeds `KalmanFilter.update` (lines 360-394).  The guard is
`len(self.x_hat) > 0 and self.x_hat[-1][0] < self.x[-1][0]`: it compares
the LAST ESTIMATE's timestamp against the last TRUE-STATE sample's
timestamp; the measurement buffer `self.y` is not consulted by the guard.
When the guard fails nothing is appended and `self.P` is untouched.
(The source reads `self.u[-1]` and `self.y[-1]` only after the guard
passes; on an empty `u`/`y` buffer Python would raise, which we model as
leaving the state unchanged, and all theorems below supply non-empty
buffers explicitly.) -/
noncomputable def update (s : State) : State :=
  match s.x_hat.getLast?, s.x.getLast?, s.u.getLast?, s.y.getLast? with
  | some xh, some xt, some uu, some yy =>
    if xh 0 < xt 0 then
      { s with x_hat := s.x_hat ++ [newEntry s.P xh uu yy],
               P := Kalman.covUpdate A C Q R s.P }
    else s
  | _, _, _, _ => s

/-- Unfolding lemma: on a fresh tick the update appends one entry and
replaces the covariance. -/
lemma update_eq_append {s : State} {xh xt : Fin 6 → ℝ} {uu yy : Fin 3 → ℝ}
    (hxh : s.x_hat.getLast? = some xh) (hxt : s.x.getLast? = some xt)
    (huu : s.u.getLast? = some uu) (hyy : s.y.getLast? = some yy)
    (hlt : xh 0 < xt 0) :
    update s = { s with x_hat := s.x_hat ++ [newEntry s.P xh uu yy],
                        P := Kalman.covUpdate A C Q R s.P } := by
  unfold update
  rw [hxh, hxt, huu, hyy]
  simp [hlt]

/-- Unfolding lemma: on a stale tick the update is the identity. -/
lemma update_eq_self {s : State} {xh xt : Fin 6 → ℝ}
    (hxh : s.x_hat.getLast? = some xh) (hxt : s.x.getLast? = some xt)
    (hlt : ¬ xh 0 < xt 0) :
    update s = s := by
  unfold update
  rw [hxh, hxt]
  cases hu : s.u.getLast? <;> cases hy : s.y.getLast? <;> simp [hlt]

namespace Spec

/-! Formalisation of the spec's own wording of the linear-KF recursion
(spec §4.3), to be compared against the embedded `update`:
`x⁻ = A·x̂ + B·u`, `P⁻ = A·P·Aᵀ + Q`, `K = P⁻·Cᵀ·(C·P⁻·Cᵀ + R)⁻¹`,
`x̂ = x⁻ + K·(z − C·x⁻)`, `P = (I − K·C)·P⁻`. -/

noncomputable def xminus (xh : Fin 6 → ℝ) (uu : Fin 3 → ℝ) : Fin 4 → ℝ :=
  A.mulVec (prevVec xh) + B.mulVec (inputVec uu)

noncomputable def Pminus (P : Matrix (Fin 4) (Fin 4) ℝ) : Matrix (Fin 4) (Fin 4) ℝ :=
  A * P * Aᵀ + Q

noncomputable def K (P : Matrix (Fin 4) (Fin 4) ℝ) : Matrix (Fin 4) (Fin 2) ℝ :=
  Pminus P * Cᵀ * (C * Pminus P * Cᵀ + R)⁻¹

noncomputable def xhat (P : Matrix (Fin 4) (Fin 4) ℝ) (xh : Fin 6 → ℝ)
    (uu : Fin 3 → ℝ) (yy : Fin 3 → ℝ) : Fin 4 → ℝ :=
  xminus xh uu + (K P).mulVec (measVec yy - C.mulVec (xminus xh uu))

noncomputable def Pnew (P : Matrix (Fin 4) (Fin 4) ℝ) : Matrix (Fin 4) (Fin 4) ℝ :=
  (1 - K P * C) * Pminus P

end Spec

end KF

/-- The append-only sample buffers of a ground-platform estimator
(`Estimator.__init__`): filled by the three ROS subscriber callbacks. -/
structure Buffers where
  x_hat : List (Fin 6 → ℝ)
  x : List (Fin 6 → ℝ)
  u : List (Fin 3 → ℝ)
  y : List (Fin 3 → ℝ)

/-- Embeds `OracleObserver.update` (Estimator.py lines 254-255):
`self.x_hat.append(self.x[-1])`, unconditionally on every timer tick.
(On an empty `x` Python would raise; `x_hat` is only seeded after the
first true-state sample arrives, so the theorems supply `x ≠ []`.) -/
def oracleUpdate (s : Buffers) : Buffers :=
  match s.x.getLast? with
  | some xt => { s with x_hat := s.x_hat ++ [xt] }
  | none => s

/-- The 5×2 input matrix inside `DeadReckoning.__init__`'s `f`
(lines 284-293). -/
noncomputable def fMat (x : Fin 6 → ℝ) : Matrix (Fin 5) (Fin 2) ℝ :=
  !![-r / (2 * d), r / (2 * d);
     r / 2 * Real.cos (x 1), r / 2 * Real.cos (x 1);
     r / 2 * Real.sin (x 1), r / 2 * Real.sin (x 1);
     1, 0;
     0, 1]

/-- Function `f(x, u) = matrix @ [u[1], u[2]]` of `DeadReckoning.__init__`. -/
noncomputable def fDR (x : Fin 6 → ℝ) (u : Fin 3 → ℝ) : Fin 5 → ℝ :=
  (fMat x).mulVec ![u 1, u 2]

/-- Embeds `DeadReckoning.model` (line 298): `x[1:] + f(x, u) * dt`
(the timestamp slot is dropped from the state). -/
noncomputable def drModel (x : Fin 6 → ℝ) (u : Fin 3 → ℝ) : Fin 5 → ℝ :=
  fun i => x i.succ + fDR x u i * dt

/-- The tuple appended by `DeadReckoning.update` (lines 303-309):
`(x_hat[-1][0] + dt, *model(x_hat[-1], u[-1]))`. -/
noncomputable def drEntry (xh : Fin 6 → ℝ) (uu : Fin 3 → ℝ) : Fin 6 → ℝ :=
  ![xh 0 + dt, drModel xh uu 0, drModel xh uu 1, drModel xh uu 2,
    drModel xh uu 3, drModel xh uu 4]

/-- Embeds `DeadReckoning.update` (lines 300-310), with the same
`len(self.x_hat) > 0 and self.x_hat[-1][0] < self.x[-1][0]` guard as the
ground Kalman filter. -/
noncomputable def drUpdate (s : Buffers) : Buffers :=
  match s.x_hat.getLast?, s.x.getLast?, s.u.getLast? with
  | some xh, some xt, some uu =>
    if xh 0 < xt 0 then { s with x_hat := s.x_hat ++ [drEntry xh uu] } else s
  | _, _, _ => s

lemma drUpdate_eq_append {s : Buffers} {xh xt : Fin 6 → ℝ} {uu : Fin 3 → ℝ}
    (hxh : s.x_hat.getLast? = some xh) (hxt : s.x.getLast? = some xt)
    (huu : s.u.getLast? = some uu) (hlt : xh 0 < xt 0) :
    drUpdate s = { s with x_hat := s.x_hat ++ [drEntry xh uu] } := by
  unfold drUpdate
  rw [hxh, hxt, huu]
  simp [hlt]

lemma drUpdate_eq_self {s : Buffers} {xh xt : Fin 6 → ℝ}
    (hxh : s.x_hat.getLast? = some xh) (hxt : s.x.getLast? = some xt)
    (hlt : ¬ xh 0 < xt 0) :
    drUpdate s = s := by
  unfold drUpdate
  rw [hxh, hxt]
  cases hu : s.u.getLast? <;> simp [hlt]

end Turtlebot

/-- C6: For the oracle estimator the appended estimate is always the most
recent true state verbatim: after running the drone's `run` loop over any
recorded data the estimate history equals the true-state history at every
index (the first entry is the seed, every later entry is appended by
`OracleObserver.update`); and on the ground platform each tick of
`OracleObserver.update` appends exactly the latest true-state sample. -/
theorem oracle_estimate_equals_true_state :
    (∀ data : List Drone.DataRow,
      (Drone.run Drone.oracleUpdate data).x_hat = data.map Drone.DataRow.x ∧
      (Drone.run Drone.oracleUpdate data).x = data.map Drone.DataRow.x) ∧
    (∀ (s : Turtlebot.Buffers) (xt : Fin 6 → ℝ), s.x.getLast? = some xt →
      (Turtlebot.oracleUpdate s).x_hat = s.x_hat ++ [xt]) := by
  constructor
  · intro data
    constructor
    · rw [Drone.run, Drone.oracle_runAux_x_hat]
      simp
    · rw [Drone.run]
      have hx : ∀ (rows : List Drone.DataRow) (i : ℕ) (s : Drone.BufState),
          (Drone.runAux Drone.oracleUpdate i s rows).x
            = s.x ++ rows.map Drone.DataRow.x := by
        intro rows
        induction rows with
        | nil => intro i s; simp [Drone.runAux]
        | cons row rest ih =>
          intro i s
          simp only [Drone.runAux, List.map_cons]
          rw [ih]
          by_cases hi : i = 0
          · simp [Drone.runStep, hi]
          · cases hlast : (s.x ++ [row.x]).getLast? <;>
              simp [Drone.runStep, hi, Drone.oracleUpdate, hlast]
      rw [hx]
      simp
  · intro s xt hxt
    unfold Turtlebot.oracleUpdate
    rw [hxt]

/-- Witness for `oracle_estimate_equals_true_state` (the ground-platform
conjunct has a hypothesis): a buffer holding one true-state sample. -/
theorem oracle_estimate_equals_true_state_witness :
    (Turtlebot.oracleUpdate
        { x_hat := [], x := [![1, 0, 0, 0, 0, 0]], u := [], y := [] }).x_hat
      = ([] : List (Fin 6 → ℝ)) ++ [![1, 0, 0, 0, 0, 0]] :=
  oracle_estimate_equals_true_state.2
    { x_hat := [], x := [![1, 0, 0, 0, 0, 0]], u := [], y := [] }
    ![1, 0, 0, 0, 0, 0] (by simp)

/-- C5 (amended): dead reckoning appends exactly the forward-Euler step
`x_{t+1} = x_t + f(x_t, u_t)·dt` of the platform's nonlinear kinematics —
unconditionally once seeded on the drone, and on the ground robot only
when the latest true-state sample is strictly newer than the last
estimate's timestamp (the same guard as the ground KF) — and replaying a
drone input stream generated by the identical noise-free model
(`row_{k+1}.x = g(row_k.x, row_{k+1}.u)`) reproduces the true-state
buffer exactly at every index beyond the seed. -/
theorem dead_reckoning_euler_step_and_replay :
    (∀ (t : ℝ) (s : Drone.BufState) (xh : Fin 6 → ℝ) (uu : Fin 2 → ℝ),
      s.x_hat.getLast? = some xh → s.u.getLast? = some uu →
      (Drone.drUpdate t s).x_hat = s.x_hat ++ [Drone.g t xh uu] ∧
      (∀ i : Fin 6, Drone.g t xh uu i = xh i + Drone.f xh uu i * t)) ∧
    (∀ (s : Turtlebot.Buffers) (xh xt : Fin 6 → ℝ) (uu : Fin 3 → ℝ),
      s.x_hat.getLast? = some xh → s.x.getLast? = some xt →
      s.u.getLast? = some uu → xh 0 < xt 0 →
      (Turtlebot.drUpdate s).x_hat = s.x_hat ++ [Turtlebot.drEntry xh uu] ∧
      (∀ i : Fin 5, Turtlebot.drEntry xh uu i.succ
          = xh i.succ + Turtlebot.fDR xh uu i * Turtlebot.dt) ∧
      Turtlebot.drEntry xh uu 0 = xh 0 + Turtlebot.dt) ∧
    (∀ (t : ℝ) (data : List Drone.DataRow),
      List.Chain' (fun a b => b.x = Drone.g t a.x b.u) data →
      (Drone.run (Drone.drUpdate t) data).x_hat = data.map Drone.DataRow.x) := by
  refine ⟨?_, ?_, ?_⟩
  · intro t s xh uu hxh huu
    constructor
    · unfold Drone.drUpdate
      rw [hxh, huu]
    · intro i; rfl
  · intro s xh xt uu hxh hxt huu hlt
    refine ⟨?_, ?_, ?_⟩
    · rw [Turtlebot.drUpdate_eq_append hxh hxt huu hlt]
    · intro i
      fin_cases i <;> simp [Turtlebot.drEntry, Turtlebot.drModel, Fin.succ] <;> rfl
    · simp [Turtlebot.drEntry]
  · intro t data hchain
    cases data with
    | nil => simp [Drone.run, Drone.runAux]
    | cons row rest =>
      rw [Drone.run]
      simp only [Drone.runAux, Drone.runStep, if_pos rfl, List.map_cons]
      rw [Drone.dr_runAux_x_hat t rest 1 _ row (by simp)
        (by simp) hchain]
      simp

/-- Concrete drone data rows for the replay witness: a three-sample
trajectory generated by the drone's own noise-free model under constant
zero input. -/
noncomputable def drRow0 : Drone.DataRow :=
  ⟨0, fun _ => 0, fun _ => 0, fun _ => 0⟩

/-- Second row: true state advanced once by the model. -/
noncomputable def drRow1 : Drone.DataRow :=
  ⟨1, Drone.g 1 (fun _ => 0) (fun _ => 0), fun _ => 0, fun _ => 0⟩

/-- Third row: true state advanced twice by the model. -/
noncomputable def drRow2 : Drone.DataRow :=
  ⟨2, Drone.g 1 (Drone.g 1 (fun _ => 0) (fun _ => 0)) (fun _ => 0),
   fun _ => 0, fun _ => 0⟩

/-- Witness for `dead_reckoning_euler_step_and_replay`: the first conjunct
at a seeded one-estimate drone state, the second at `kfDemo`'s buffers,
the third on the three-row model-generated trajectory. -/
theorem dead_reckoning_euler_step_and_replay_witness :
    ((Drone.drUpdate 1
        { t := [0], x := [fun _ => 0], u := [fun _ => 0], y := [fun _ => 0],
          x_hat := [fun _ => 0] }).x_hat
      = [fun _ => 0] ++ [Drone.g 1 (fun _ => 0) (fun _ => 0)] ∧
      (∀ i : Fin 6, Drone.g 1 (fun _ => 0) (fun _ => 0) i
        = (fun _ => (0:ℝ)) i + Drone.f (fun _ => 0) (fun _ => 0) i * 1)) ∧
    ((Turtlebot.drUpdate
        { x_hat := [fun _ => 0], x := [![1, 0, 0, 0, 0, 0]],
          u := [fun _ => 0], y := [fun _ => 0] }).x_hat
      = [fun _ => 0] ++ [Turtlebot.drEntry (fun _ => 0) (fun _ => 0)] ∧
      (∀ i : Fin 5, Turtlebot.drEntry (fun _ => 0) (fun _ => 0) i.succ
          = (fun _ => (0:ℝ)) i.succ
            + Turtlebot.fDR (fun _ => 0) (fun _ => 0) i * Turtlebot.dt) ∧
      Turtlebot.drEntry (fun _ => 0) (fun _ => 0) 0
        = (fun _ => (0:ℝ)) 0 + Turtlebot.dt) ∧
    (Drone.run (Drone.drUpdate 1) [drRow0, drRow1, drRow2]).x_hat
      = [drRow0, drRow1, drRow2].map Drone.DataRow.x :=
  ⟨dead_reckoning_euler_step_and_replay.1 1 _ (fun _ => 0) (fun _ => 0)
      (by simp) (by simp),
   dead_reckoning_euler_step_and_replay.2.1 _ (fun _ => 0) ![1, 0, 0, 0, 0, 0]
      (fun _ => 0) (by simp) (by simp) (by simp) (by simp),
   dead_reckoning_euler_step_and_replay.2.2 1 [drRow0, drRow1, drRow2]
      (by simp [List.chain'_cons, drRow0, drRow1, drRow2])⟩

/-- C5 (counterexample to the claim as stated): on the ground platform a
non-empty estimate history and a latest buffered input do NOT suffice for
dead reckoning to append: with the last estimate's timestamp (1) not
strictly older than the last true-state sample's timestamp (1), `update`
appends nothing at all. -/
theorem turtlebot_dr_stale_tick_appends_nothing :
    (Turtlebot.drUpdate
        { x_hat := [![1, 0, 0, 0, 0, 0]], x := [![1, 0, 0, 0, 0, 0]],
          u := [fun _ => 0], y := [] }).x_hat.length = 1 := by
  rw [@Turtlebot.drUpdate_eq_self _ ![1, 0, 0, 0, 0, 0] ![1, 0, 0, 0, 0, 0]
    (by simp) (by simp) (by norm_num)]
  rfl

/-! ## Error metric (`calc_error`, both platforms)

`np.arctan2 (y, x)` is the angle of the point `(x, y)` in `(−π, π]`,
which is exactly `Complex.arg ⟨x, y⟩`. -/

/-- Embeds `np.arctan2(y, x)`. -/
noncomputable def atan2 (y x : ℝ) : ℝ := Complex.arg ⟨x, y⟩

/-- The re-wrap used by both `calc_error`s on bearings:
`atan2(sin θ, cos θ)`, the representative of `θ` in `(−π, π]`. -/
noncomputable def wrapAngle (θ : ℝ) : ℝ := atan2 (Real.sin θ) (Real.cos θ)

lemma wrapAngle_eq_self {θ : ℝ} (h1 : -Real.pi < θ) (h2 : θ ≤ Real.pi) :
    wrapAngle θ = θ := by
  unfold wrapAngle atan2
  rw [Complex.mk_eq_add_mul_I, Complex.ofReal_cos, Complex.ofReal_sin]
  exact Complex.arg_cos_add_sin_mul_I ⟨h1, h2⟩

lemma wrapAngle_add_int_mul_two_pi (θ : ℝ) (k : ℤ) :
    wrapAngle (θ + k * (2 * Real.pi)) = wrapAngle θ := by
  unfold wrapAngle
  rw [Real.sin_add_int_mul_two_pi, Real.cos_add_int_mul_two_pi]

namespace Turtlebot

/-- The wrapped 5-row column stack built by `Estimator.calc_error`
(Estimator.py lines 212-231) out of one state row: the bearing (index 1)
re-wrapped by `arctan2(sin, cos)`, followed by the remaining four
components; timestamps (index 0) are not compared. -/
noncomputable def wrapState (v : Fin 6 → ℝ) : Fin 5 → ℝ :=
  ![wrapAngle (v 1), v 2, v 3, v 4, v 5]

/-- Embeds `np.linalg.norm(estimated_states - actual_states, axis=1)`: the
component-wise (per state row) Euclidean norm over time of the wrapped
difference. -/
noncomputable def errVec (x est : List (Fin 6 → ℝ)) : Fin 5 → ℝ :=
  fun j =>
    Real.sqrt (((est.zip x).map
      (fun p => (wrapState p.1 j - wrapState p.2 j) ^ 2)).sum)

/-- Broadcast case of the final subtraction: a `(5, 1)` stacked estimate
against a `(5, n)` stacked truth — numpy repeats the single (wrapped)
estimate column against every (wrapped) true column. -/
noncomputable def errVecBroadcastEst (x : List (Fin 6 → ℝ)) (e : Fin 6 → ℝ) :
    Fin 5 → ℝ :=
  fun j => Real.sqrt ((x.map (fun xt => (wrapState e j - wrapState xt j) ^ 2)).sum)

/-- Broadcast case `(5, m)` estimates against a `(5, 1)` stacked truth. -/
noncomputable def errVecBroadcastTrue (est : List (Fin 6 → ℝ)) (a : Fin 6 → ℝ) :
    Fin 5 → ℝ :=
  fun j => Real.sqrt ((est.map (fun e => (wrapState e j - wrapState a j) ^ 2)).sum)

/-- Embeds `Estimator.calc_error` (Estimator.py lines 206-232).
`np.array` of an empty history has shape `(0,)`, so the column indexing
`[:, 1]` raises an IndexError (modelled `none`).  The source truncates
ONLY when the estimate history is strictly longer than the true-state
history (`if estimated_states.shape[0] > actual_states.shape[0]`).  The
final subtraction of the `(5, m)` and `(5, n)` stacks follows numpy
broadcasting: defined when `m = n`, or when one side is a single column
(which is then compared against every column of the other side), and a
`ValueError` (modelled `none`) otherwise. -/
noncomputable def calcError (x x_hat : List (Fin 6 → ℝ)) :
    Option (Fin 5 → ℝ) :=
  if x_hat.length = 0 ∨ x.length = 0 then none
  else
    let est := if x.length < x_hat.length then x_hat.take x.length else x_hat
    if est.length = x.length then some (errVec x est)
    else if est.length = 1 then some (errVecBroadcastEst x est.headI)
    else if x.length = 1 then some (errVecBroadcastTrue est x.headI)
    else none

end Turtlebot

namespace Drone

/-- The wrapped 6-row column stack built by `Estimator.calc_error`
(drone_estimator.py lines 176-203): the bearing (index 2) re-wrapped, all
six state components compared. -/
noncomputable def wrapState (v : Fin 6 → ℝ) : Fin 6 → ℝ :=
  ![v 0, v 1, wrapAngle (v 2), v 3, v 4, v 5]

/-- Per-component Euclidean norm over time of the wrapped difference. -/
noncomputable def errVec (x est : List (Fin 6 → ℝ)) : Fin 6 → ℝ :=
  fun j =>
    Real.sqrt (((est.zip x).map
      (fun p => (wrapState p.1 j - wrapState p.2 j) ^ 2)).sum)

/-- Broadcast case `(6, 1)` stacked estimate against `(6, n)` truths. -/
noncomputable def errVecBroadcastEst (x : List (Fin 6 → ℝ)) (e : Fin 6 → ℝ) :
    Fin 6 → ℝ :=
  fun j => Real.sqrt ((x.map (fun xt => (wrapState e j - wrapState xt j) ^ 2)).sum)

/-- Broadcast case `(6, m)` estimates against a `(6, 1)` stacked truth. -/
noncomputable def errVecBroadcastTrue (est : List (Fin 6 → ℝ)) (a : Fin 6 → ℝ) :
    Fin 6 → ℝ :=
  fun j => Real.sqrt ((est.map (fun e => (wrapState e j - wrapState a j) ^ 2)).sum)

/-- Embeds `Estimator.calc_error` (drone_estimator.py lines 176-203).
An empty history makes `np.array(...)[:, 0]` raise an IndexError
(modelled `none`); the drone variant never truncates, and the subtraction
of the `(6, m)` and `(6, n)` stacks follows numpy broadcasting: defined
when `m = n` or when one side is a single column (compared against every
column of the other side), and a `ValueError` (modelled `none`)
otherwise. -/
noncomputable def calcError (x x_hat : List (Fin 6 → ℝ)) :
    Option (Fin 6 → ℝ) :=
  if x_hat.length = 0 ∨ x.length = 0 then none
  else if x_hat.length = x.length then some (errVec x x_hat)
  else if x_hat.length = 1 then some (errVecBroadcastEst x x_hat.headI)
  else if x.length = 1 then some (errVecBroadcastTrue x_hat x.headI)
  else none

end Drone

/-- Branch normal form of the ground `calc_error`: in the truncation
branch the stacked shapes always match, and after it the remaining
branches are exactly the numpy broadcasting rule on the stack widths. -/
lemma calcErrorG_cases (x xh : List (Fin 6 → ℝ)) :
    Turtlebot.calcError x xh =
      if xh.length = 0 ∨ x.length = 0 then none
      else if x.length < xh.length then
        some (Turtlebot.errVec x (xh.take x.length))
      else if xh.length = x.length then some (Turtlebot.errVec x xh)
      else if xh.length = 1 then some (Turtlebot.errVecBroadcastEst x xh.headI)
      else if x.length = 1 then some (Turtlebot.errVecBroadcastTrue xh x.headI)
      else none := by
  unfold Turtlebot.calcError
  by_cases h0 : xh.length = 0 ∨ x.length = 0
  · rw [if_pos h0, if_pos h0]
  · rw [if_neg h0, if_neg h0]
    by_cases h : x.length < xh.length
    · rw [if_pos h]
      have hlen : (List.take x.length xh).length = x.length := by
        simp [List.length_take, Nat.min_eq_left (le_of_lt h)]
      rw [if_pos hlen, if_pos h]
    · rw [if_neg h, if_neg h]

/-- C7 (counterexample): with a true-state history of 3 samples and an
estimate history of 2 samples, the ground `calc_error` does NOT truncate
to the shorter length — the source only truncates when the ESTIMATE
history is the longer one, so here the `(5,2)` and `(5,3)` stacks reach
the numpy subtraction, which fails (a broadcast `ValueError`) instead of
returning an error vector. -/
theorem calc_error_true_longer_fails :
    Turtlebot.calcError (List.replicate 3 (fun _ => (0 : ℝ)))
      (List.replicate 2 (fun _ => (0 : ℝ))) = none := by
  rw [calcErrorG_cases]
  norm_num

/-- C7 (amended): the ground `calc_error` truncates only in one
direction: whenever the estimate history is non-empty and at least as
long as the (non-empty) true-state history it compares the first
`x.length` estimates against the whole true-state history and returns a
well-defined per-component error vector.  When the true-state history is
longer, no truncation happens: if the estimate stack has two or more
columns the subtraction fails, and if it has exactly one column numpy
broadcasts it against every true column — a well-defined but misaligned
comparison, not a truncation.  The drone variant never truncates: unequal
lengths fail unless one side is a single column, which is broadcast.
Empty histories fail on both platforms (IndexError while stacking). -/
theorem calc_error_truncates_only_estimate_side :
    (∀ x x_hat : List (Fin 6 → ℝ), x ≠ [] → x.length ≤ x_hat.length →
      Turtlebot.calcError x x_hat
        = some (Turtlebot.errVec x (x_hat.take x.length))) ∧
    (∀ x x_hat : List (Fin 6 → ℝ), 1 < x_hat.length → x_hat.length < x.length →
      Turtlebot.calcError x x_hat = none) ∧
    (∀ (x : List (Fin 6 → ℝ)) (e : Fin 6 → ℝ), 1 < x.length →
      Turtlebot.calcError x [e] = some (Turtlebot.errVecBroadcastEst x e)) ∧
    (∀ x x_hat : List (Fin 6 → ℝ), 1 < x_hat.length → 1 < x.length →
      x_hat.length ≠ x.length → Drone.calcError x x_hat = none) ∧
    (∀ (x : List (Fin 6 → ℝ)) (e : Fin 6 → ℝ), 1 < x.length →
      Drone.calcError x [e] = some (Drone.errVecBroadcastEst x e)) ∧
    (∀ x x_hat : List (Fin 6 → ℝ), x = [] ∨ x_hat = [] →
      Turtlebot.calcError x x_hat = none ∧ Drone.calcError x x_hat = none) := by
  refine ⟨?_, ?_, ?_, ?_, ?_, ?_⟩
  · intro x x_hat hx hle
    have hxpos : 0 < x.length := List.length_pos.mpr hx
    rw [calcErrorG_cases]
    by_cases hlt : x.length < x_hat.length
    · have h0 : ¬ (x_hat.length = 0 ∨ x.length = 0) := by omega
      rw [if_neg h0, if_pos hlt]
    · have heq : x_hat.length = x.length := le_antisymm (not_lt.mp hlt) hle
      have h0 : ¬ (x_hat.length = 0 ∨ x.length = 0) := by omega
      rw [if_neg h0, if_neg hlt, if_pos heq,
        List.take_of_length_le (le_of_eq heq)]
  · intro x x_hat h1 h2
    rw [calcErrorG_cases]
    have h0 : ¬ (x_hat.length = 0 ∨ x.length = 0) := by omega
    rw [if_neg h0, if_neg (by omega), if_neg (by omega), if_neg (by omega),
      if_neg (by omega)]
  · intro x e hx
    rw [calcErrorG_cases]
    have h0 : ¬ (([e] : List (Fin 6 → ℝ)).length = 0 ∨ x.length = 0) := by
      simp only [List.length_singleton]
      omega
    have h1 : ¬ (x.length < ([e] : List (Fin 6 → ℝ)).length) := by
      simp only [List.length_singleton]
      omega
    have h2 : ¬ (([e] : List (Fin 6 → ℝ)).length = x.length) := by
      simp only [List.length_singleton]
      omega
    rw [if_neg h0, if_neg h1, if_neg h2, if_pos (List.length_singleton e)]
    rfl
  · intro x x_hat h1 h2 hne
    unfold Drone.calcError
    rw [if_neg (by omega), if_neg hne, if_neg (by omega), if_neg (by omega)]
  · intro x e hx
    unfold Drone.calcError
    have h0 : ¬ (([e] : List (Fin 6 → ℝ)).length = 0 ∨ x.length = 0) := by
      simp only [List.length_singleton]
      omega
    have h2 : ¬ (([e] : List (Fin 6 → ℝ)).length = x.length) := by
      simp only [List.length_singleton]
      omega
    rw [if_neg h0, if_neg h2, if_pos (List.length_singleton e)]
    rfl
  · intro x x_hat h
    have h0 : x_hat.length = 0 ∨ x.length = 0 := by
      rcases h with h | h <;> simp [h]
    constructor
    · rw [calcErrorG_cases, if_pos h0]
    · unfold Drone.calcError
      rw [if_pos h0]

/-- Witness for `calc_error_truncates_only_estimate_side`: each conjunct
applied at concrete histories built from the all-zero state row. -/
theorem calc_error_truncates_only_estimate_side_witness :
    Turtlebot.calcError [fun _ => (0 : ℝ)] [fun _ => (0 : ℝ)]
      = some (Turtlebot.errVec [fun _ => (0 : ℝ)]
          (([fun _ => (0 : ℝ)] : List (Fin 6 → ℝ)).take 1)) ∧
    Turtlebot.calcError
        [fun _ => (0 : ℝ), fun _ => 0, fun _ => 0]
        [fun _ => (0 : ℝ), fun _ => 0] = none ∧
    Turtlebot.calcError [fun _ => (0 : ℝ), fun _ => 0] [fun _ => (0 : ℝ)]
      = some (Turtlebot.errVecBroadcastEst
          [fun _ => (0 : ℝ), fun _ => 0] (fun _ => 0)) ∧
    Drone.calcError
        [fun _ => (0 : ℝ), fun _ => 0, fun _ => 0]
        [fun _ => (0 : ℝ), fun _ => 0] = none ∧
    Drone.calcError [fun _ => (0 : ℝ), fun _ => 0] [fun _ => (0 : ℝ)]
      = some (Drone.errVecBroadcastEst
          [fun _ => (0 : ℝ), fun _ => 0] (fun _ => 0)) ∧
    (Turtlebot.calcError ([] : List (Fin 6 → ℝ)) [] = none ∧
      Drone.calcError ([] : List (Fin 6 → ℝ)) [] = none) :=
  ⟨calc_error_truncates_only_estimate_side.1 [fun _ => 0] [fun _ => 0]
      (by simp) (by simp),
   calc_error_truncates_only_estimate_side.2.1
      [fun _ => 0, fun _ => 0, fun _ => 0] [fun _ => 0, fun _ => 0]
      (by simp) (by simp),
   calc_error_truncates_only_estimate_side.2.2.1
      [fun _ => 0, fun _ => 0] (fun _ => 0) (by simp),
   calc_error_truncates_only_estimate_side.2.2.2.1
      [fun _ => 0, fun _ => 0, fun _ => 0] [fun _ => 0, fun _ => 0]
      (by simp) (by simp) (by simp),
   calc_error_truncates_only_estimate_side.2.2.2.2.1
      [fun _ => 0, fun _ => 0] (fun _ => 0) (by simp),
   calc_error_truncates_only_estimate_side.2.2.2.2.2 [] [] (Or.inl rfl)⟩

/-- Adding `k` full turns to the ground state's bearing (index 1). -/
noncomputable def shiftBearingG (k : ℤ) (v : Fin 6 → ℝ) : Fin 6 → ℝ :=
  Function.update v 1 (v 1 + k * (2 * Real.pi))

/-- Adding `k` full turns to the drone state's bearing (index 2). -/
noncomputable def shiftBearingD (k : ℤ) (v : Fin 6 → ℝ) : Fin 6 → ℝ :=
  Function.update v 2 (v 2 + k * (2 * Real.pi))

lemma wrapState_shiftG (k : ℤ) (v : Fin 6 → ℝ) :
    Turtlebot.wrapState (shiftBearingG k v) = Turtlebot.wrapState v := by
  funext j
  fin_cases j <;>
    simp [Turtlebot.wrapState, shiftBearingG, Function.update,
      wrapAngle_add_int_mul_two_pi]

lemma wrapState_shiftD (k : ℤ) (v : Fin 6 → ℝ) :
    Drone.wrapState (shiftBearingD k v) = Drone.wrapState v := by
  funext j
  fin_cases j <;>
    simp [Drone.wrapState, shiftBearingD, Function.update,
      wrapAngle_add_int_mul_two_pi]

lemma errVecG_map_wrap (x est : List (Fin 6 → ℝ)) :
    Turtlebot.errVec x est = fun j =>
      Real.sqrt ((((est.map Turtlebot.wrapState).zip
        (x.map Turtlebot.wrapState)).map
          (fun p => (p.1 j - p.2 j) ^ 2)).sum) := by
  funext j
  show Real.sqrt _ = Real.sqrt _
  congr 1
  rw [List.zip_map, List.map_map]
  rfl

lemma errVecD_map_wrap (x est : List (Fin 6 → ℝ)) :
    Drone.errVec x est = fun j =>
      Real.sqrt ((((est.map Drone.wrapState).zip
        (x.map Drone.wrapState)).map
          (fun p => (p.1 j - p.2 j) ^ 2)).sum) := by
  funext j
  show Real.sqrt _ = Real.sqrt _
  congr 1
  rw [List.zip_map, List.map_map]
  rfl

lemma errVecG_congr {x x' est est' : List (Fin 6 → ℝ)}
    (hx : x.map Turtlebot.wrapState = x'.map Turtlebot.wrapState)
    (hest : est.map Turtlebot.wrapState = est'.map Turtlebot.wrapState) :
    Turtlebot.errVec x est = Turtlebot.errVec x' est' := by
  rw [errVecG_map_wrap, errVecG_map_wrap, hx, hest]

lemma errVecD_congr {x x' est est' : List (Fin 6 → ℝ)}
    (hx : x.map Drone.wrapState = x'.map Drone.wrapState)
    (hest : est.map Drone.wrapState = est'.map Drone.wrapState) :
    Drone.errVec x est = Drone.errVec x' est' := by
  rw [errVecD_map_wrap, errVecD_map_wrap, hx, hest]

lemma headI_map_ne_nil {α β : Type} [Inhabited α] [Inhabited β]
    (f : α → β) {l : List α} (h : l ≠ []) : (l.map f).headI = f l.headI := by
  cases l with
  | nil => exact absurd rfl h
  | cons a t => rfl

lemma errVecBroadcastEstG_congr {x x' : List (Fin 6 → ℝ)} {e e' : Fin 6 → ℝ}
    (hx : x.map Turtlebot.wrapState = x'.map Turtlebot.wrapState)
    (he : Turtlebot.wrapState e = Turtlebot.wrapState e') :
    Turtlebot.errVecBroadcastEst x e = Turtlebot.errVecBroadcastEst x' e' := by
  funext j
  show Real.sqrt _ = Real.sqrt _
  congr 1
  have h1 : ∀ (xs : List (Fin 6 → ℝ)) (v : Fin 6 → ℝ),
      xs.map (fun xt => (Turtlebot.wrapState v j - Turtlebot.wrapState xt j) ^ 2)
        = (xs.map Turtlebot.wrapState).map
            (fun q => (Turtlebot.wrapState v j - q j) ^ 2) := by
    intro xs v
    rw [List.map_map]
    rfl
  rw [h1, h1, hx, he]

lemma errVecBroadcastTrueG_congr {est est' : List (Fin 6 → ℝ)}
    {a a' : Fin 6 → ℝ}
    (hest : est.map Turtlebot.wrapState = est'.map Turtlebot.wrapState)
    (ha : Turtlebot.wrapState a = Turtlebot.wrapState a') :
    Turtlebot.errVecBroadcastTrue est a = Turtlebot.errVecBroadcastTrue est' a' := by
  funext j
  show Real.sqrt _ = Real.sqrt _
  congr 1
  have h1 : ∀ (xs : List (Fin 6 → ℝ)) (v : Fin 6 → ℝ),
      xs.map (fun e => (Turtlebot.wrapState e j - Turtlebot.wrapState v j) ^ 2)
        = (xs.map Turtlebot.wrapState).map
            (fun q => (q j - Turtlebot.wrapState v j) ^ 2) := by
    intro xs v
    rw [List.map_map]
    rfl
  rw [h1, h1, hest, ha]

lemma errVecBroadcastEstD_congr {x x' : List (Fin 6 → ℝ)} {e e' : Fin 6 → ℝ}
    (hx : x.map Drone.wrapState = x'.map Drone.wrapState)
    (he : Drone.wrapState e = Drone.wrapState e') :
    Drone.errVecBroadcastEst x e = Drone.errVecBroadcastEst x' e' := by
  funext j
  show Real.sqrt _ = Real.sqrt _
  congr 1
  have h1 : ∀ (xs : List (Fin 6 → ℝ)) (v : Fin 6 → ℝ),
      xs.map (fun xt => (Drone.wrapState v j - Drone.wrapState xt j) ^ 2)
        = (xs.map Drone.wrapState).map (fun q => (Drone.wrapState v j - q j) ^ 2) := by
    intro xs v
    rw [List.map_map]
    rfl
  rw [h1, h1, hx, he]

lemma errVecBroadcastTrueD_congr {est est' : List (Fin 6 → ℝ)}
    {a a' : Fin 6 → ℝ}
    (hest : est.map Drone.wrapState = est'.map Drone.wrapState)
    (ha : Drone.wrapState a = Drone.wrapState a') :
    Drone.errVecBroadcastTrue est a = Drone.errVecBroadcastTrue est' a' := by
  funext j
  show Real.sqrt _ = Real.sqrt _
  congr 1
  have h1 : ∀ (xs : List (Fin 6 → ℝ)) (v : Fin 6 → ℝ),
      xs.map (fun e => (Drone.wrapState e j - Drone.wrapState v j) ^ 2)
        = (xs.map Drone.wrapState).map (fun q => (q j - Drone.wrapState v j) ^ 2) := by
    intro xs v
    rw [List.map_map]
    rfl
  rw [h1, h1, hest, ha]

/-- A wrap-equality of two histories gives a wrap-equality of their first
rows, provided they are non-empty. -/
lemma wrapState_headI_of_map_eqG {l l' : List (Fin 6 → ℝ)}
    (h : l.map Turtlebot.wrapState = l'.map Turtlebot.wrapState)
    (hl : l ≠ []) (hl' : l' ≠ []) :
    Turtlebot.wrapState l.headI = Turtlebot.wrapState l'.headI := by
  have hh := congrArg List.headI h
  rwa [headI_map_ne_nil _ hl, headI_map_ne_nil _ hl'] at hh

lemma wrapState_headI_of_map_eqD {l l' : List (Fin 6 → ℝ)}
    (h : l.map Drone.wrapState = l'.map Drone.wrapState)
    (hl : l ≠ []) (hl' : l' ≠ []) :
    Drone.wrapState l.headI = Drone.wrapState l'.headI := by
  have hh := congrArg List.headI h
  rwa [headI_map_ne_nil _ hl, headI_map_ne_nil _ hl'] at hh

lemma ne_nil_of_length_eq_one {α : Type} {l : List α} (h : l.length = 1) :
    l ≠ [] := by
  intro hnil
  rw [hnil] at h
  simp at h

/-- Lemma: `calc_error` only sees the histories through their wrapped column
stacks, so any two wrap-equal histories give the same result — including
the broadcast branches. -/
lemma calcErrorG_congr {x x' xh xh' : List (Fin 6 → ℝ)}
    (hx : x.map Turtlebot.wrapState = x'.map Turtlebot.wrapState)
    (hxh : xh.map Turtlebot.wrapState = xh'.map Turtlebot.wrapState) :
    Turtlebot.calcError x xh = Turtlebot.calcError x' xh' := by
  have hxl : x.length = x'.length := by
    have h := congrArg List.length hx
    simpa using h
  have hxhl : xh.length = xh'.length := by
    have h := congrArg List.length hxh
    simpa using h
  rw [calcErrorG_cases, calcErrorG_cases, hxl, hxhl]
  by_cases h0 : xh'.length = 0 ∨ x'.length = 0
  · rw [if_pos h0, if_pos h0]
  · rw [if_neg h0, if_neg h0]
    by_cases h1 : x'.length < xh'.length
    · rw [if_pos h1, if_pos h1]
      exact congrArg some
        (errVecG_congr hx (by rw [List.map_take, List.map_take, hxh]))
    · rw [if_neg h1, if_neg h1]
      by_cases h2 : xh'.length = x'.length
      · rw [if_pos h2, if_pos h2]
        exact congrArg some (errVecG_congr hx hxh)
      · rw [if_neg h2, if_neg h2]
        by_cases h3 : xh'.length = 1
        · rw [if_pos h3, if_pos h3]
          have hne : xh ≠ [] := ne_nil_of_length_eq_one (hxhl.trans h3)
          have hne' : xh' ≠ [] := ne_nil_of_length_eq_one h3
          exact congrArg some (errVecBroadcastEstG_congr hx
            (wrapState_headI_of_map_eqG hxh hne hne'))
        · rw [if_neg h3, if_neg h3]
          by_cases h4 : x'.length = 1
          · rw [if_pos h4, if_pos h4]
            have hne : x ≠ [] := ne_nil_of_length_eq_one (hxl.trans h4)
            have hne' : x' ≠ [] := ne_nil_of_length_eq_one h4
            exact congrArg some (errVecBroadcastTrueG_congr hxh
              (wrapState_headI_of_map_eqG hx hne hne'))
          · rw [if_neg h4, if_neg h4]

lemma calcErrorD_congr {x x' xh xh' : List (Fin 6 → ℝ)}
    (hx : x.map Drone.wrapState = x'.map Drone.wrapState)
    (hxh : xh.map Drone.wrapState = xh'.map Drone.wrapState) :
    Drone.calcError x xh = Drone.calcError x' xh' := by
  have hxl : x.length = x'.length := by
    have h := congrArg List.length hx
    simpa using h
  have hxhl : xh.length = xh'.length := by
    have h := congrArg List.length hxh
    simpa using h
  unfold Drone.calcError
  rw [hxl, hxhl]
  by_cases h0 : xh'.length = 0 ∨ x'.length = 0
  · rw [if_pos h0, if_pos h0]
  · rw [if_neg h0, if_neg h0]
    by_cases h2 : xh'.length = x'.length
    · rw [if_pos h2, if_pos h2]
      exact congrArg some (errVecD_congr hx hxh)
    · rw [if_neg h2, if_neg h2]
      by_cases h3 : xh'.length = 1
      · rw [if_pos h3, if_pos h3]
        have hne : xh ≠ [] := ne_nil_of_length_eq_one (hxhl.trans h3)
        have hne' : xh' ≠ [] := ne_nil_of_length_eq_one h3
        exact congrArg some (errVecBroadcastEstD_congr hx
          (wrapState_headI_of_map_eqD hxh hne hne'))
      · rw [if_neg h3, if_neg h3]
        by_cases h4 : x'.length = 1
        · rw [if_pos h4, if_pos h4]
          have hne : x ≠ [] := ne_nil_of_length_eq_one (hxl.trans h4)
          have hne' : x' ≠ [] := ne_nil_of_length_eq_one h4
          exact congrArg some (errVecBroadcastTrueD_congr hxh
            (wrapState_headI_of_map_eqD hx hne hne'))
        · rw [if_neg h4, if_neg h4]

/-- C8 (amended): both `calc_error`s re-wrap every bearing component of
both histories into `(−π, π]` via `atan2(sin θ, cos θ)` before
subtracting, so the result is invariant under adding integer multiples of
`2π` to any bearing entry of either history. -/
theorem calc_error_invariant_mod_two_pi :
    (∀ (x y : List (Fin 6 → ℝ)) (i : ℕ) (v : Fin 6 → ℝ) (k : ℤ),
      Turtlebot.calcError (x.set i (shiftBearingG k v)) y
          = Turtlebot.calcError (x.set i v) y ∧
      Turtlebot.calcError x (y.set i (shiftBearingG k v))
          = Turtlebot.calcError x (y.set i v)) ∧
    (∀ (x y : List (Fin 6 → ℝ)) (i : ℕ) (v : Fin 6 → ℝ) (k : ℤ),
      Drone.calcError (x.set i (shiftBearingD k v)) y
          = Drone.calcError (x.set i v) y ∧
      Drone.calcError x (y.set i (shiftBearingD k v))
          = Drone.calcError x (y.set i v)) := by
  constructor
  · intro x y i v k
    have hset : (x.set i (shiftBearingG k v)).map Turtlebot.wrapState
        = (x.set i v).map Turtlebot.wrapState := by
      rw [List.map_set, List.map_set, wrapState_shiftG]
    have hset' : (y.set i (shiftBearingG k v)).map Turtlebot.wrapState
        = (y.set i v).map Turtlebot.wrapState := by
      rw [List.map_set, List.map_set, wrapState_shiftG]
    exact ⟨calcErrorG_congr hset rfl, calcErrorG_congr rfl hset'⟩
  · intro x y i v k
    have hset : (x.set i (shiftBearingD k v)).map Drone.wrapState
        = (x.set i v).map Drone.wrapState := by
      rw [List.map_set, List.map_set, wrapState_shiftD]
    have hset' : (y.set i (shiftBearingD k v)).map Drone.wrapState
        = (y.set i v).map Drone.wrapState := by
      rw [List.map_set, List.map_set, wrapState_shiftD]
    exact ⟨calcErrorD_congr hset rfl, calcErrorD_congr rfl hset'⟩

/-- True state with bearing `π − 0.01` (all other components zero). -/
noncomputable def bearingTrue : Fin 6 → ℝ := ![0, Real.pi - 1/100, 0, 0, 0, 0]

/-- Estimate with bearing `−π + 0.01` (all other components zero). -/
noncomputable def bearingEst : Fin 6 → ℝ := ![0, -Real.pi + 1/100, 0, 0, 0, 0]

/-- C8 (counterexample): a true bearing of `π − 0.01` against an estimate
of `−π + 0.01` yields a bearing error of exactly `2π − 0.02 ≈ 6.26` — NOT
near zero — because both angles already lie in `(−π, π]`, so the per-entry
re-wrap leaves them unchanged and the difference itself is never
re-wrapped. -/
theorem calc_error_antipodal_bearings_error_near_two_pi :
    (Turtlebot.calcError [bearingTrue] [bearingEst]).map (fun e => e 0)
        = some (2 * Real.pi - 1/50) ∧
    (6 : ℝ) < 2 * Real.pi - 1/50 := by
  have hwt : Turtlebot.wrapState bearingTrue 0 = Real.pi - 1/100 := by
    have h1 : -Real.pi < Real.pi - 1/100 := by nlinarith [Real.pi_gt_d6]
    have h2 : Real.pi - 1/100 ≤ Real.pi := by norm_num
    have h0 : Turtlebot.wrapState bearingTrue 0
        = wrapAngle (Real.pi - 1/100) := rfl
    rw [h0]
    exact wrapAngle_eq_self h1 h2
  have hwe : Turtlebot.wrapState bearingEst 0 = -Real.pi + 1/100 := by
    have h1 : -Real.pi < -Real.pi + 1/100 := by norm_num
    have h2 : -Real.pi + 1/100 ≤ Real.pi := by nlinarith [Real.pi_gt_d6]
    have h0 : Turtlebot.wrapState bearingEst 0
        = wrapAngle (-Real.pi + 1/100) := rfl
    rw [h0]
    exact wrapAngle_eq_self h1 h2
  have hdiff : Turtlebot.wrapState bearingEst 0 - Turtlebot.wrapState bearingTrue 0
      = -(2 * Real.pi - 1/50) := by
    rw [hwt, hwe]; ring
  constructor
  · have hcalc : Turtlebot.calcError [bearingTrue] [bearingEst]
        = some (Turtlebot.errVec [bearingTrue] [bearingEst]) := by
      simp [Turtlebot.calcError]
    rw [hcalc]
    have hmap : (some (Turtlebot.errVec [bearingTrue] [bearingEst])).map
          (fun e => e 0)
        = some (Turtlebot.errVec [bearingTrue] [bearingEst] 0) := rfl
    rw [hmap]
    have hsum : Turtlebot.errVec [bearingTrue] [bearingEst] 0
        = Real.sqrt ((Turtlebot.wrapState bearingEst 0
            - Turtlebot.wrapState bearingTrue 0) ^ 2) := by
      simp [Turtlebot.errVec]
    rw [hsum, hdiff, neg_sq]
    exact congrArg some (Real.sqrt_sq (by nlinarith [Real.pi_gt_d6]))
  · nlinarith [Real.pi_gt_d6]

/-- C4: On a fresh tick the ground-platform linear Kalman filter performs
exactly the fixed-matrix recursion `x⁻ = A·x̂ + B·u`, `P⁻ = A·P·Aᵀ + Q`,
`K = P⁻·Cᵀ·(C·P⁻·Cᵀ + R)⁻¹`, `x̂ = x⁻ + K·(z − C·x⁻)`,
`P = (I − K·C)·P⁻` (`A` and `B` are the `__init__`-time constants — the
embedded `update` only ever writes `x_hat` and `P`), and the appended
estimate's bearing slot is the fixed constant `π/4`, never an estimated
value. -/
theorem turtlebot_kf_is_fixed_matrix_recursion :
    ∀ (s : Turtlebot.KF.State) (xh xt : Fin 6 → ℝ) (uu yy : Fin 3 → ℝ),
    s.x_hat.getLast? = some xh → s.x.getLast? = some xt →
    s.u.getLast? = some uu → s.y.getLast? = some yy →
    xh 0 < xt 0 →
    (Turtlebot.KF.update s).x_hat
        = s.x_hat ++ [Turtlebot.KF.newEntry s.P xh uu yy] ∧
    (∀ i : Fin 4, Turtlebot.KF.newEntry s.P xh uu yy i.succ.succ
        = Turtlebot.KF.Spec.xhat s.P xh uu yy i) ∧
    Turtlebot.KF.newEntry s.P xh uu yy 1 = Real.pi / 4 ∧
    (Turtlebot.KF.update s).P = Turtlebot.KF.Spec.Pnew s.P := by
  intro s xh xt uu yy hxh hxt huu hyy hlt
  rw [Turtlebot.KF.update_eq_append hxh hxt huu hyy hlt]
  refine ⟨rfl, ?_, ?_, ?_⟩
  · intro i
    have hcs : Turtlebot.KF.correct s.P xh uu yy
        = Turtlebot.KF.Spec.xhat s.P xh uu yy := rfl
    fin_cases i <;>
      simp [Turtlebot.KF.newEntry, hcs, Fin.succ]
  · simp [Turtlebot.KF.newEntry, Turtlebot.KF.phid]
  · rfl

/-- Concrete one-sample KF state used to witness the theorems about the
ground Kalman filter: one all-zero estimate, one true-state sample with
timestamp `1`, one input and one measurement sample, `P = P0`. -/
noncomputable def kfDemo : Turtlebot.KF.State :=
  { x_hat := [fun _ => 0]
    x := [![1, 0, 0, 0, 0, 0]]
    u := [fun _ => 0]
    y := [fun _ => 0]
    P := Turtlebot.KF.P0 }

/-- Witness for `turtlebot_kf_is_fixed_matrix_recursion` at `kfDemo`. -/
theorem turtlebot_kf_is_fixed_matrix_recursion_witness :
    (Turtlebot.KF.update kfDemo).x_hat
        = kfDemo.x_hat ++
          [Turtlebot.KF.newEntry kfDemo.P (fun _ => 0) (fun _ => 0) (fun _ => 0)] ∧
    (∀ i : Fin 4,
      Turtlebot.KF.newEntry kfDemo.P (fun _ => 0) (fun _ => 0) (fun _ => 0) i.succ.succ
        = Turtlebot.KF.Spec.xhat kfDemo.P (fun _ => 0) (fun _ => 0) (fun _ => 0) i) ∧
    Turtlebot.KF.newEntry kfDemo.P (fun _ => 0) (fun _ => 0) (fun _ => 0) 1
        = Real.pi / 4 ∧
    (Turtlebot.KF.update kfDemo).P = Turtlebot.KF.Spec.Pnew kfDemo.P :=
  turtlebot_kf_is_fixed_matrix_recursion kfDemo
    (fun _ => 0) ![1, 0, 0, 0, 0, 0] (fun _ => 0) (fun _ => 0)
    (by simp [kfDemo]) (by simp [kfDemo]) (by simp [kfDemo]) (by simp [kfDemo])
    (by simp [kfDemo])

/-- C3 (counterexample): invoking the ground KF's `update` twice with no
new measurement between the calls appends TWICE, not once.  Starting from
`kfDemo` (last estimate timestamp `0`, last true-state timestamp `1`,
`dt = 0.1`), both calls pass the guard — which compares estimate and
TRUE-STATE timestamps and never consults the measurement buffer — so the
estimate buffer grows from 1 to 3 entries while the measurement buffer is
never touched.  (On the drone the situation is even simpler: the
timestamp check in `ExtendedKalmanFilter.update` is commented out, so it
appends on every call once seeded.) -/
theorem turtlebot_kf_double_update_appends_twice :
    (Turtlebot.KF.update (Turtlebot.KF.update kfDemo)).x_hat.length = 3 ∧
    (Turtlebot.KF.update (Turtlebot.KF.update kfDemo)).y = kfDemo.y := by
  have h1 := @Turtlebot.KF.update_eq_append kfDemo
    (fun _ => 0) ![1, 0, 0, 0, 0, 0] (fun _ => 0) (fun _ => 0)
    (by simp [kfDemo]) (by simp [kfDemo]) (by simp [kfDemo]) (by simp [kfDemo])
    (by simp [kfDemo])
  have h2 := @Turtlebot.KF.update_eq_append (Turtlebot.KF.update kfDemo)
    (Turtlebot.KF.newEntry kfDemo.P (fun _ => 0) (fun _ => 0) (fun _ => 0))
    ![1, 0, 0, 0, 0, 0]
    (fun _ => 0) (fun _ => 0)
    (by rw [h1]; simp [kfDemo]) (by rw [h1]; simp [kfDemo])
    (by rw [h1]; simp [kfDemo]) (by rw [h1]; simp [kfDemo])
    (by
      simp [Turtlebot.KF.newEntry, Turtlebot.dt]
      norm_num)
  rw [h2, h1]
  simp [kfDemo]

/-- C3 (amended): a ground-platform KF or EKF tick is a no-op exactly
when the latest true-state sample's timestamp is not strictly newer than
the last estimate's timestamp — nothing is appended, covariance and all
buffers are unchanged — and measurement freshness is never checked: on a
fresh tick the ground EKF appends exactly one estimate while the
measurement buffer is untouched, and the drone EKF, whose timestamp
check is commented out, appends exactly one estimate on EVERY call once
seeded, fresh measurement or not. -/
theorem turtlebot_kf_update_noop_when_stale :
    (∀ (s : Turtlebot.KF.State) (xh xt : Fin 6 → ℝ),
      s.x_hat.getLast? = some xh → s.x.getLast? = some xt →
      ¬ xh 0 < xt 0 → Turtlebot.KF.update s = s) ∧
    (∀ (s : Turtlebot.EKF.State) (xh xt : Fin 6 → ℝ),
      s.x_hat.getLast? = some xh → s.x.getLast? = some xt →
      ¬ xh 0 < xt 0 → Turtlebot.EKF.update s = s) ∧
    (∀ (s : Turtlebot.EKF.State) (xh xt : Fin 6 → ℝ) (uu yy : Fin 3 → ℝ),
      s.x_hat.getLast? = some xh → s.x.getLast? = some xt →
      s.u.getLast? = some uu → s.y.getLast? = some yy →
      xh 0 < xt 0 →
      (Turtlebot.EKF.update s).x_hat.length = s.x_hat.length + 1 ∧
      (Turtlebot.EKF.update s).y = s.y) ∧
    (∀ (t : ℝ) (s : Drone.EKF.State) (xh : Fin 6 → ℝ) (uu yy : Fin 2 → ℝ),
      s.x_hat.getLast? = some xh → s.u.getLast? = some uu →
      s.y.getLast? = some yy →
      (Drone.EKF.update t s).x_hat.length = s.x_hat.length + 1 ∧
      (Drone.EKF.update t s).y = s.y) := by
  refine ⟨?_, ?_, ?_, ?_⟩
  · intro s xh xt hxh hxt hlt
    exact Turtlebot.KF.update_eq_self hxh hxt hlt
  · intro s xh xt hxh hxt hlt
    exact Turtlebot.EKF.ekfUpdate_eq_self hxh hxt hlt
  · intro s xh xt uu yy hxh hxt huu hyy hlt
    rw [Turtlebot.EKF.ekfUpdate_eq_append hxh hxt huu hyy hlt]
    simp
  · intro t s xh uu yy hxh huu hyy
    rw [Drone.EKF.droneEkfUpdate_eq_append hxh huu hyy]
    simp

/-- Concrete stale KF state: the last (and only) estimate carries
timestamp `1`, equal to the last true-state sample's timestamp. -/
noncomputable def kfStale : Turtlebot.KF.State :=
  { x_hat := [![1, 0, 0, 0, 0, 0]]
    x := [![1, 0, 0, 0, 0, 0]]
    u := []
    y := []
    P := Turtlebot.KF.P0 }

/-- The same stale buffers for the ground EKF (the Jacobian slots start
at the `__init__` value `np.eye(5)` and an arbitrary `C`). -/
noncomputable def ekfStale : Turtlebot.EKF.State :=
  { x_hat := [![1, 0, 0, 0, 0, 0]]
    x := [![1, 0, 0, 0, 0, 0]]
    u := []
    y := []
    P := Turtlebot.EKF.Q
    A := 1
    C := 0 }

/-- A fresh-tick ground-EKF state: estimate timestamp `0`, true-state
timestamp `1`, one input and one measurement sample. -/
noncomputable def ekfFresh : Turtlebot.EKF.State :=
  { x_hat := [fun _ => 0]
    x := [![1, 0, 0, 0, 0, 0]]
    u := [fun _ => 0]
    y := [fun _ => 0]
    P := Turtlebot.EKF.Q
    A := 1
    C := 0 }

/-- A seeded drone-EKF state: one estimate, one input, one measurement,
no true-state sample newer than anything — the drone appends anyway. -/
noncomputable def droneEkfSeeded : Drone.EKF.State :=
  { x_hat := [fun _ => 0]
    x := [fun _ => 0]
    u := [fun _ => 0]
    y := [fun _ => 0]
    P := Drone.EKF.P0
    A := 1
    C := 0 }

/-- Witness for `turtlebot_kf_update_noop_when_stale`: the two no-op
conjuncts at the stale states, the two append conjuncts at the seeded
states. -/
theorem turtlebot_kf_update_noop_when_stale_witness :
    Turtlebot.KF.update kfStale = kfStale ∧
    Turtlebot.EKF.update ekfStale = ekfStale ∧
    ((Turtlebot.EKF.update ekfFresh).x_hat.length
        = ekfFresh.x_hat.length + 1 ∧
      (Turtlebot.EKF.update ekfFresh).y = ekfFresh.y) ∧
    ((Drone.EKF.update 1 droneEkfSeeded).x_hat.length
        = droneEkfSeeded.x_hat.length + 1 ∧
      (Drone.EKF.update 1 droneEkfSeeded).y = droneEkfSeeded.y) :=
  ⟨turtlebot_kf_update_noop_when_stale.1 kfStale
      ![1, 0, 0, 0, 0, 0] ![1, 0, 0, 0, 0, 0]
      (by simp [kfStale]) (by simp [kfStale]) (by norm_num),
   turtlebot_kf_update_noop_when_stale.2.1 ekfStale
      ![1, 0, 0, 0, 0, 0] ![1, 0, 0, 0, 0, 0]
      (by simp [ekfStale]) (by simp [ekfStale]) (by norm_num),
   turtlebot_kf_update_noop_when_stale.2.2.1 ekfFresh
      (fun _ => 0) ![1, 0, 0, 0, 0, 0] (fun _ => 0) (fun _ => 0)
      (by simp [ekfFresh]) (by simp [ekfFresh]) (by simp [ekfFresh])
      (by simp [ekfFresh]) (by simp [ekfFresh]),
   turtlebot_kf_update_noop_when_stale.2.2.2 1 droneEkfSeeded
      (fun _ => 0) (fun _ => 0) (fun _ => 0)
      (by simp [droneEkfSeeded]) (by simp [droneEkfSeeded])
      (by simp [droneEkfSeeded])⟩

/-! ## Covariance positive semi-definiteness (Joseph-form argument)

With the optimal gain `K = P⁻·Cᵀ·S⁻¹`, `S = C·P⁻·Cᵀ + R`, the updated
covariance `(I − K·C)·P⁻` equals the Joseph form
`(I − K·C)·P⁻·(I − K·C)ᵀ + K·R·Kᵀ`, a sum of two congruences of positive
semi-definite matrices. -/

namespace Kalman

lemma covUpdate_posSemidef {n m : ℕ} {A : Matrix (Fin n) (Fin n) ℝ}
    {C : Matrix (Fin m) (Fin n) ℝ} {P Q : Matrix (Fin n) (Fin n) ℝ}
    {R : Matrix (Fin m) (Fin m) ℝ}
    (hP : P.PosSemidef) (hQ : Q.PosSemidef) (hR : R.PosDef) :
    (covUpdate A C Q R P).PosSemidef := by
  classical
  have hconv : ∀ {k l : ℕ} (M : Matrix (Fin k) (Fin l) ℝ), Mᴴ = Mᵀ :=
    fun M => Matrix.conjTranspose_eq_transpose_of_trivial M
  set Pp : Matrix (Fin n) (Fin n) ℝ := Ppred A P Q with hPp_def
  have hPp : Pp.PosSemidef := by
    have h1 : (A * P * Aᴴ).PosSemidef := hP.mul_mul_conjTranspose_same A
    rw [hconv] at h1
    exact h1.add hQ
  set S : Matrix (Fin m) (Fin m) ℝ := C * Pp * Cᵀ + R with hS_def
  have hCPC : (C * Pp * Cᵀ).PosSemidef := by
    have h2 := hPp.mul_mul_conjTranspose_same C
    rwa [hconv] at h2
  have hS : S.PosDef := Matrix.PosDef.posSemidef_add hCPC hR
  have hdet : IsUnit S.det := (Matrix.isUnit_iff_isUnit_det S).mp hS.isUnit
  set K : Matrix (Fin n) (Fin m) ℝ := Pp * Cᵀ * S⁻¹ with hK_def
  have hgain : gain A C Q R P = K := rfl
  have hgoal : covUpdate A C Q R P = (1 - K * C) * Pp := by
    rw [covUpdate, hgain]
  rw [hgoal]
  have hPpT : Ppᵀ = Pp := by
    have h := hPp.isHermitian
    rw [Matrix.IsHermitian, hconv] at h
    exact h
  have hST : Sᵀ = S := by
    have h := hS.1
    rw [Matrix.IsHermitian, hconv] at h
    exact h
  have hSinvT : S⁻¹ᵀ = S⁻¹ := by rw [Matrix.transpose_nonsing_inv, hST]
  have hKS : K * S = Pp * Cᵀ := by
    rw [hK_def, Matrix.mul_assoc, Matrix.nonsing_inv_mul S hdet, Matrix.mul_one]
  have hmain : (1 - K * C) * Pp * Cᵀ = K * R := by
    have hCPpC : C * Pp * Cᵀ = S - R := by
      rw [hS_def, add_sub_cancel_right]
    calc (1 - K * C) * Pp * Cᵀ
        = Pp * Cᵀ - K * (C * Pp * Cᵀ) := by
          rw [Matrix.sub_mul, Matrix.sub_mul, Matrix.one_mul]
          simp only [hK_def, Matrix.mul_assoc]
      _ = Pp * Cᵀ - K * (S - R) := by rw [hCPpC]
      _ = Pp * Cᵀ - (K * S - K * R) := by rw [Matrix.mul_sub]
      _ = K * R := by rw [hKS]; abel
  have hTr : (1 - K * C)ᵀ = 1 - Cᵀ * Kᵀ := by
    rw [Matrix.transpose_sub, Matrix.transpose_one, Matrix.transpose_mul]
  have key : (1 - K * C) * Pp
      = (1 - K * C) * Pp * (1 - K * C)ᵀ + K * R * Kᵀ := by
    rw [hTr, Matrix.mul_sub, Matrix.mul_one, ← Matrix.mul_assoc, hmain]
    abel
  rw [key]
  have h1 : ((1 - K * C) * Pp * (1 - K * C)ᵀ).PosSemidef := by
    have h := hPp.mul_mul_conjTranspose_same (1 - K * C)
    rwa [hconv] at h
  have h2 : (K * R * Kᵀ).PosSemidef := by
    have h := hR.posSemidef.mul_mul_conjTranspose_same K
    rwa [hconv] at h
  exact h1.add h2

end Kalman

/-- C9: Over exact arithmetic, if the estimation-error covariance `P` is
symmetric positive semi-definite before an update, then the covariance
produced by the update step `P = (I − K·C)·P⁻`, `P⁻ = A·P·Aᵀ + Q`, is
again symmetric positive semi-definite — for the ground linear KF with
its construction-time `Q = I`, `R = diag(1,1)`, `C` the position
selector, and for the drone EKF with `Q = diag(2,.03,7,2,13,.5)`,
`R = diag(1.7,.5)` and the per-tick Jacobians `approx_A`, `approx_C` at
any operating point.  (`Matrix.PosSemidef` bundles hermitian-ness, which
over `ℝ` is symmetry.) -/
theorem kf_ekf_covariance_remains_psd :
    (∀ P : Matrix (Fin 4) (Fin 4) ℝ, P.PosSemidef →
      (Kalman.covUpdate Turtlebot.KF.A Turtlebot.KF.C Turtlebot.KF.Q
        Turtlebot.KF.R P).PosSemidef) ∧
    (∀ (t : ℝ) (x xp : Fin 6 → ℝ) (u : Fin 2 → ℝ)
        (P : Matrix (Fin 6) (Fin 6) ℝ), P.PosSemidef →
      (Kalman.covUpdate (Drone.approx_A t x u) (Drone.approx_C xp)
        Drone.EKF.Q Drone.EKF.R P).PosSemidef) := by
  constructor
  · intro P hP
    have hQ : (Turtlebot.KF.Q).PosSemidef := by
      rw [Turtlebot.KF.Q]
      exact Matrix.PosSemidef.one
    have hR : (Turtlebot.KF.R).PosDef := by
      rw [Turtlebot.KF.R]
      refine Matrix.posDef_diagonal_iff.mpr ?_
      intro i
      fin_cases i <;> norm_num
    exact Kalman.covUpdate_posSemidef hP hQ hR
  · intro t x xp u P hP
    have hQ : (Drone.EKF.Q).PosSemidef := by
      rw [Drone.EKF.Q]
      refine Matrix.PosSemidef.diagonal ?_
      intro i
      fin_cases i <;> norm_num
    have hR : (Drone.EKF.R).PosDef := by
      rw [Drone.EKF.R]
      refine Matrix.posDef_diagonal_iff.mpr ?_
      intro i
      fin_cases i <;> norm_num
    exact Kalman.covUpdate_posSemidef hP hQ hR

/-- Witness for `kf_ekf_covariance_remains_psd` at `P = 1` (and the
drone's Jacobians evaluated at the all-zero operating point). -/
theorem kf_ekf_covariance_remains_psd_witness :
    (Kalman.covUpdate Turtlebot.KF.A Turtlebot.KF.C Turtlebot.KF.Q
      Turtlebot.KF.R 1).PosSemidef ∧
    (Kalman.covUpdate (Drone.approx_A 0 (fun _ => 0) (fun _ => 0))
      (Drone.approx_C (fun _ => 0)) Drone.EKF.Q Drone.EKF.R 1).PosSemidef :=
  ⟨kf_ekf_covariance_remains_psd.1 1 Matrix.PosSemidef.one,
   kf_ekf_covariance_remains_psd.2 0 (fun _ => 0) (fun _ => 0) (fun _ => 0) 1
     Matrix.PosSemidef.one⟩

/-- C1: The ground EKF's measurement-Jacobian range row is NOT guarded
against the zero-distance singularity.  At a predicted state whose
position equals the landmark `(0.5, 0.5)` the denominator evaluates to
exactly `0` — there is no minimum-distance clamp anywhere in
`ExtendedKalmanFilter.update` — so numpy evaluates the range-row entries
as `0/0 = NaN`, which then propagates through the Kalman gain into the
appended estimate.  (There is also no handler around `np.linalg.inv`.) -/
theorem turtlebot_ekf_jacobian_denominator_unguarded :
    Turtlebot.EKF.Cdenom ![0, 1/2, 1/2, 0, 0] = 0 := by
  have : Turtlebot.EKF.lx - (1 : ℝ)/2 = 0 := by norm_num [Turtlebot.EKF.lx]
  simp [Turtlebot.EKF.Cdenom, Turtlebot.EKF.lx, Turtlebot.EKF.ly]
  norm_num
